import Mathlib

/-!
# Verification of the duck-chess sprite extractor and board animation controller

Shallow embedding of `src/lib/utils/sprites.ts` (sprite-sheet slicing utilities)
and of the `<script>` logic of `src/lib/ChessBoard.svelte` (the click-driven
board animation state machine), together with proofs of the specification's
claims about them.

Conventions of the embedding:
* A decoded raster image (`HTMLImageElement` after `onload`) is a width, a
  height and a pixel function.
* A produced frame (the content serialized by `canvas.toDataURL` after
  `clearRect` + `drawImage`) is a finite pixel grid; pixels whose source
  coordinate falls outside the source image stay transparent (`none`), which
  is what `clearRect` followed by a clipped `drawImage` yields.
* The browser environment is a `fetch` oracle (`none` models a failed network
  fetch or decode, firing `onerror`) and a flag telling whether
  `canvas.getContext('2d')` returns a context or `null`.
* Fallible operations return `Except SpriteError`; `typeError` models the
  JavaScript `TypeError` thrown by reading a property of `undefined`.
* `setInterval` / `clearInterval` are modelled by an explicit timer system:
  a fresh-id counter plus the list of currently active interval handles.
-/

set_option autoImplicit false

namespace DuckChess

/-- A decoded image: dimensions plus an abstract pixel at each coordinate. -/
structure Img where
  width : Nat
  height : Nat
  pixel : Nat → Nat → Nat

/-- One cropped frame, as serialized by `toDataURL`: a `width × height` grid of
optional pixels (`none` = transparent). `pixels[y][x]` is the pixel at `(x, y)`. -/
structure Frame where
  width : Nat
  height : Nat
  pixels : List (List (Option Nat))
deriving DecidableEq

/-- `clearRect(0,0,w,h)` followed by
`drawImage(img, sx, sy, w, h, 0, 0, w, h)` followed by `toDataURL`:
the crop of the rectangle `[sx, sy, w, h]` out of `img`, with source pixels
outside the image left transparent. -/
def crop (img : Img) (sx sy w h : Nat) : Frame :=
  { width := w
    height := h
    pixels := (List.range h).map fun y => (List.range w).map fun x =>
      if sx + x < img.width ∧ sy + y < img.height then
        some (img.pixel (sx + x) (sy + y))
      else
        none }

/-- The error kinds of the sprite utilities.
`loadError` is the `Failed to load image: ${url}` rejection of `loadImage`;
`renderError` is the `Could not get canvas context` throw;
`typeError` is the JavaScript `TypeError` raised by reading a property of
`undefined` (reachable only when a configuration object lacks a key that the
code reads without a guard). -/
inductive SpriteError where
  | loadError (url : String)
  | renderError
  | typeError
deriving DecidableEq

/-- The browser environment seen by the utilities: what `new Image()` +
`src = url` delivers for each URL (`none` = fetch/decode failure), and whether
`canvas.getContext('2d')` succeeds. -/
structure Env where
  fetch : String → Option Img
  ctx2d : Bool

/-- `loadImage(url)`: resolves with the decoded image on `onload`, rejects
with the load error on `onerror`. One fetch per call, never retried. -/
def loadImage (env : Env) (url : String) : Except SpriteError Img :=
  match env.fetch url with
  | some img => .ok img
  | none => .error (.loadError url)

/-- `canv.getContext('2d')` plus the `if (!ctx) throw` guard shared by every
extraction function. -/
def getContext2d (env : Env) : Except SpriteError Unit :=
  if env.ctx2d then .ok () else .error .renderError

/-- `splitSpriteSheet(url, columns, rows = 1)`: loads the sheet, derives
`frameWidth = floor(width/columns)`, `frameHeight = floor(height/rows)` and
crops each grid cell, pushing frames row by row (outer loop `r`, inner loop
`c`), i.e. in row-major order. -/
def splitSpriteSheet (env : Env) (url : String) (columns : Nat) (rows : Nat := 1) :
    Except SpriteError (List Frame) := do
  let img ← loadImage env url
  let frameWidth := img.width / columns
  let frameHeight := img.height / rows
  let _ ← getContext2d env
  return (List.range rows).flatMap fun r =>
    (List.range columns).map fun c =>
      crop img (c * frameWidth) (r * frameHeight) frameWidth frameHeight

/-- `extractSprite(url, column, row, frameWidth, frameHeight)`: one crop at
the grid cell `(column, row)`. -/
def extractSprite (env : Env) (url : String) (column row frameWidth frameHeight : Nat) :
    Except SpriteError Frame := do
  let img ← loadImage env url
  let _ ← getContext2d env
  return crop img (column * frameWidth) (row * frameHeight) frameWidth frameHeight

/-- `CHESS_SPRITE_SIZE`: default sprite cell size of the pieces sheet. -/
def CHESS_SPRITE_SIZE : Nat := 16

/-- `extractAnimationFrames(url, row, startColumn, endColumn, frameWidth,
frameHeight)`: the loop `for (col = startColumn; col <= endColumn; col++)`
cropping one frame per column of the given row. `List.range' startColumn
(endColumn + 1 - startColumn)` is exactly the columns the loop visits, in
order (empty when `startColumn > endColumn`). -/
def extractAnimationFrames (env : Env) (url : String) (row startColumn endColumn : Nat)
    (frameWidth : Nat := CHESS_SPRITE_SIZE) (frameHeight : Nat := CHESS_SPRITE_SIZE) :
    Except SpriteError (List Frame) := do
  let img ← loadImage env url
  let _ ← getContext2d env
  return (List.range' startColumn (endColumn + 1 - startColumn)).map fun col =>
    crop img (col * frameWidth) (row * frameHeight) frameWidth frameHeight

/-- `ChessPieceType`. -/
inductive ChessPieceType where
  | king | queen | bishop | knight | rook | pawn
deriving DecidableEq

/-- `ChessColorType`. -/
inductive ChessColorType where
  | white | black | green | blue
deriving DecidableEq

/-- `SpritePosition`: a grid cell of the sheet. -/
structure SpritePosition where
  column : Nat
  row : Nat
deriving DecidableEq

/-- Runtime shape of `ColorPiecesConfig`: the TypeScript interface declares
all six positions, but the consuming code guards with `if (piecePos)`, so at
runtime a position may be absent (`undefined`); property access is a total
lookup returning an optional value, exactly like a JavaScript object. -/
structure ColorPiecesConfig where
  pos : ChessPieceType → Option SpritePosition

/-- Runtime shape of `FullChessConfig`: `config[color]` may be absent
(`green` / `blue` are optional in the interface, and the code also guards
`white` / `black` accesses in `loadPieceAnimationFrames`). -/
structure FullChessConfig where
  colorConfig : ChessColorType → Option ColorPiecesConfig

/-- `AnimationColumnsConfig`: column range of a selection animation strip. -/
structure AnimationColumnsConfig where
  startColumn : Nat
  endColumn : Nat
deriving DecidableEq

/-- The `extractSingle` closure of `loadChessPiecesWithConfig`; it reads
`pos.column` / `pos.row` without a guard, so an absent position is the
JavaScript `TypeError`. -/
def extractSingle (img : Img) (fw fh : Nat) (pos : Option SpritePosition) :
    Except SpriteError Frame :=
  match pos with
  | some p => .ok (crop img (p.column * fw) (p.row * fh) fw fh)
  | none => .error .typeError

/-- The `extractColorSet` closure of `loadChessPiecesWithConfig`: one
`extractSingle` per piece type, yielding a total record (every key present). -/
def extractColorSet (img : Img) (fw fh : Nat) (cc : ColorPiecesConfig) :
    Except SpriteError (ChessPieceType → Option Frame) := do
  let k ← extractSingle img fw fh (cc.pos .king)
  let q ← extractSingle img fw fh (cc.pos .queen)
  let b ← extractSingle img fw fh (cc.pos .bishop)
  let n ← extractSingle img fw fh (cc.pos .knight)
  let r ← extractSingle img fw fh (cc.pos .rook)
  let p ← extractSingle img fw fh (cc.pos .pawn)
  return fun t => match t with
    | .king => some k
    | .queen => some q
    | .bishop => some b
    | .knight => some n
    | .rook => some r
    | .pawn => some p

/-- `loadChessPiecesWithConfig(url, config, frameWidth, frameHeight)`:
loads the sheet, checks the context, then builds the record literal
`{ white: extractColorSet(config.white), black: extractColorSet(config.black),
green: config.green ? extractColorSet(config.green) : {},
blue: config.blue ? extractColorSet(config.blue) : {} }`.
An absent `white`/`black` config is an unguarded field read (`TypeError`);
an absent `green`/`blue` config yields the empty record (every key `none`). -/
def loadChessPiecesWithConfig (env : Env) (url : String) (config : FullChessConfig)
    (fw fh : Nat) :
    Except SpriteError (ChessColorType → ChessPieceType → Option Frame) := do
  let img ← loadImage env url
  let _ ← getContext2d env
  let white ← match config.colorConfig .white with
    | some cc => extractColorSet img fw fh cc
    | none => .error .typeError
  let black ← match config.colorConfig .black with
    | some cc => extractColorSet img fw fh cc
    | none => .error .typeError
  let green ← match config.colorConfig .green with
    | some cc => extractColorSet img fw fh cc
    | none => pure fun _ => none
  let blue ← match config.colorConfig .blue with
    | some cc => extractColorSet img fw fh cc
    | none => pure fun _ => none
  return fun col => match col with
    | .white => white
    | .black => black
    | .green => green
    | .blue => blue

/-- `DEFAULT_CHESS_PIECES_CONFIG` (all four colors present, all six positions
present per color). -/
def DEFAULT_CHESS_PIECES_CONFIG : FullChessConfig :=
  { colorConfig := fun col => some
      { pos := fun t =>
          match col, t with
          | .blue, .pawn => some ⟨0, 0⟩
          | .blue, .rook => some ⟨1, 1⟩
          | .blue, .knight => some ⟨1, 2⟩
          | .blue, .bishop => some ⟨2, 3⟩
          | .blue, .queen => some ⟨1, 4⟩
          | .blue, .king => some ⟨2, 5⟩
          | .green, .pawn => some ⟨5, 0⟩
          | .green, .rook => some ⟨6, 1⟩
          | .green, .knight => some ⟨6, 2⟩
          | .green, .bishop => some ⟨7, 3⟩
          | .green, .queen => some ⟨6, 4⟩
          | .green, .king => some ⟨7, 5⟩
          | .white, .pawn => some ⟨0, 6⟩
          | .white, .rook => some ⟨1, 7⟩
          | .white, .knight => some ⟨1, 8⟩
          | .white, .bishop => some ⟨2, 9⟩
          | .white, .queen => some ⟨1, 10⟩
          | .white, .king => some ⟨2, 11⟩
          | .black, .pawn => some ⟨5, 6⟩
          | .black, .rook => some ⟨6, 7⟩
          | .black, .knight => some ⟨6, 8⟩
          | .black, .bishop => some ⟨7, 9⟩
          | .black, .queen => some ⟨6, 10⟩
          | .black, .king => some ⟨7, 11⟩ } }

/-- `DEFAULT_ANIMATION_COLUMNS`. -/
def DEFAULT_ANIMATION_COLUMNS : ChessColorType → AnimationColumnsConfig
  | .white => ⟨1, 4⟩
  | .blue => ⟨1, 4⟩
  | .green => ⟨6, 9⟩
  | .black => ⟨6, 9⟩

/-- The `extractFramesForPiece` closure of `loadPieceAnimationFrames`: the
loop `for (col = startCol; col <= endCol; col++)` cropping 16×16 cells of one
row. -/
def extractFramesForPiece (img : Img) (row startCol endCol : Nat) : List Frame :=
  (List.range' startCol (endCol + 1 - startCol)).map fun col =>
    crop img (col * CHESS_SPRITE_SIZE) (row * CHESS_SPRITE_SIZE)
      CHESS_SPRITE_SIZE CHESS_SPRITE_SIZE

/-- `loadPieceAnimationFrames(url, config, animConfig)`: loads the sheet,
checks the context, then for each color with a present config
(`if (!colorConfig) continue`) and each piece type with a present position
(`if (piecePos)`) assigns the animation strip of that piece's row over the
color's column range; every other key stays absent. The imperative
double loop assigns each `(color, pieceType)` slot at most once and reads no
slot, so it is this pointwise function. -/
def loadPieceAnimationFrames (env : Env) (url : String) (config : FullChessConfig)
    (animConfig : ChessColorType → AnimationColumnsConfig) :
    Except SpriteError (ChessColorType → ChessPieceType → Option (List Frame)) := do
  let img ← loadImage env url
  let _ ← getContext2d env
  return fun color =>
    match config.colorConfig color with
    | none => fun _ => none
    | some cc => fun t =>
      match cc.pos t with
      | none => none
      | some p =>
        some (extractFramesForPiece img p.row
          (animConfig color).startColumn (animConfig color).endColumn)

/-!
## Board animation controller (`ChessBoard.svelte`)
-/

/-- A board piece: `{ color, type }`. -/
structure BoardPiece where
  color : ChessColorType
  type : ChessPieceType
deriving DecidableEq

/-- The logical board: `BoardPiece[][]`, a list of rows of optional pieces. -/
abbrev Board : Type := List (List (Option BoardPiece))

/-- `boardState[r]?.[c]`: row lookup, then cell lookup, flattening the
JavaScript `undefined` (out of bounds) and `null` (empty cell) into `none`. -/
def cellAt (b : Board) (r c : Nat) : Option BoardPiece :=
  (((b : List (List (Option BoardPiece))).get? r).bind fun row => row.get? c).join

/-- `board[r][c] = piece` on the nested-array board. -/
def setCell (b : Board) (r c : Nat) (p : Option BoardPiece) : Board :=
  (b : List (List (Option BoardPiece))).set r
    (((b : List (List (Option BoardPiece))).getD r []).set c p)

/-- The `backRow` order used by `getInitialBoard`. -/
def backRow : List ChessPieceType :=
  [.rook, .knight, .bishop, .queen, .king, .bishop, .knight, .rook]

/-- `getInitialBoard()`: an 8×8 all-`null` array, then white pieces written
into rows 7 (back row) and 6 (pawns), black pieces into rows 0 (back row)
and 1 (pawns), by two `for (c = 0; c < 8; c++)` loops. -/
def getInitialBoard : Board :=
  let b0 : Board := List.replicate 8 (List.replicate 8 (none : Option BoardPiece))
  let b1 := (List.range 8).foldl
    (fun b c => setCell (setCell b 7 c (some ⟨.white, backRow.getD c .rook⟩))
      6 c (some ⟨.white, .pawn⟩)) b0
  (List.range 8).foldl
    (fun b c => setCell (setCell b 0 c (some ⟨.black, backRow.getD c .rook⟩))
      1 c (some ⟨.black, .pawn⟩)) b1

/-- `getPieceSprite(r, c, frame, selected)`: `null` when the sprites are not
loaded or the cell is out of bounds or empty; otherwise, when the cell is the
selected one and animation frame lists are loaded and the piece's list exists
and is non-empty, the list entry at `frame % frames.length`; otherwise the
static sprite of the piece, `none` when unknown
(`pieceSprites[color]?.[type] || null`). -/
def getPieceSprite (pieceSprites : Option (ChessColorType → ChessPieceType → Option Frame))
    (animationFrames : Option (ChessColorType → ChessPieceType → Option (List Frame)))
    (boardState : Board) (r c : Nat) (frame : Nat)
    (selected : Option (Nat × Nat)) : Option Frame :=
  match pieceSprites with
  | none => none
  | some sprites =>
    match cellAt boardState r c with
    | none => none
    | some piece =>
      let staticSprite := sprites piece.color piece.type
      match selected, animationFrames with
      | some sel, some anim =>
        if sel.1 = r ∧ sel.2 = c then
          match anim piece.color piece.type with
          | some frames =>
            if 0 < frames.length then frames.get? (frame % frames.length)
            else staticSprite
          | none => staticSprite
        else staticSprite
      | _, _ => staticSprite

/-- The `setInterval` / `clearInterval` machinery: a fresh-handle counter and
the list of currently active interval handles. -/
structure TimerSys where
  nextId : Nat
  active : List Nat
deriving DecidableEq

/-- `setInterval(...)`: allocates a fresh handle and activates it. -/
def setIntervalSys (t : TimerSys) : Nat × TimerSys :=
  (t.nextId, { nextId := t.nextId + 1, active := t.nextId :: t.active })

/-- `clearInterval(id)`: deactivates the handle. -/
def clearIntervalSys (t : TimerSys) (id : Nat) : TimerSys :=
  { t with active := t.active.erase id }

/-- The mutable component state of `ChessBoard.svelte` that the click /
timer logic touches, plus the timer system it talks to. The `playerColor`
prop is immutable after mount. -/
structure CtrlState where
  playerColor : ChessColorType
  boardState : Board
  selectedPiece : Option (Nat × Nat)
  currentFrame : Nat
  animationInterval : Option Nat
  timers : TimerSys

/-- `stopAnimation()`: clear the interval if one is set, then null the
selection and reset the frame counter. -/
def stopAnimation (s : CtrlState) : CtrlState :=
  let s1 := match s.animationInterval with
    | some id => { s with timers := clearIntervalSys s.timers id, animationInterval := none }
    | none => s
  { s1 with selectedPiece := none, currentFrame := 0 }

/-- `startAnimation(r, c)`: stop the current animation, return early when the
cell is out of bounds or empty, otherwise select the cell, reset the frame
counter and start a fresh interval. -/
def startAnimation (s : CtrlState) (r c : Nat) : CtrlState :=
  let s1 := stopAnimation s
  match cellAt s1.boardState r c with
  | none => s1
  | some _ =>
    let (id, timers) := setIntervalSys s1.timers
    { s1 with
      selectedPiece := some (r, c)
      currentFrame := 0
      animationInterval := some id
      timers := timers }

/-- `handleSquareClick(r, c)`: empty cell stops the animation; a piece not
owned by the player is ignored; re-clicking the selected cell stops the
animation; any other own piece starts the animation there. -/
def handleSquareClick (s : CtrlState) (r c : Nat) : CtrlState :=
  match cellAt s.boardState r c with
  | none => stopAnimation s
  | some piece =>
    if piece.color ≠ s.playerColor then s
    else if s.selectedPiece = some (r, c) then stopAnimation s
    else startAnimation s r c

/-- The external events the component reacts to: a click on square `(r, c)`,
a tick of interval handle `id` (delivered only while that handle is active),
and `onDestroy`. -/
inductive BoardEvent where
  | click (r c : Nat)
  | tick (id : Nat)
  | destroy
deriving DecidableEq

/-- One step of the controller. A tick of an inactive (cleared) handle never
fires; an active handle's callback is `() => { currentFrame++ }`. -/
def step (s : CtrlState) : BoardEvent → CtrlState
  | .click r c => handleSquareClick s r c
  | .tick id =>
    if id ∈ s.timers.active then { s with currentFrame := s.currentFrame + 1 } else s
  | .destroy => stopAnimation s

/-- Run a sequence of events. -/
def run (s : CtrlState) (es : List BoardEvent) : CtrlState :=
  es.foldl step s

/-- The component state right after `onMount`: the initial board, no
selection, frame counter 0, no interval, no active timer. -/
def initialState (playerColor : ChessColorType) : CtrlState :=
  { playerColor := playerColor
    boardState := getInitialBoard
    selectedPiece := none
    currentFrame := 0
    animationInterval := none
    timers := { nextId := 0, active := [] } }

/-- The controller invariant: either Idle — no selection, no interval handle,
no active timer, frame counter 0 — or Selected — a selected cell together
with exactly one interval handle, which is the single active timer and was
allocated by this timer system (its id is below the fresh-id counter). -/
def sessionInv (s : CtrlState) : Prop :=
  (s.selectedPiece = none ∧ s.animationInterval = none ∧
    s.timers.active = [] ∧ s.currentFrame = 0) ∨
  (∃ cell id, s.selectedPiece = some cell ∧ s.animationInterval = some id ∧
    s.timers.active = [id] ∧ id < s.timers.nextId)

/-- A clean Idle state: no selection, no interval handle, no active timer,
frame counter 0. This is the state `stopAnimation` tears down to (given
`sessionInv`), and it persists until a click selects a piece again. -/
def idleClean (s : CtrlState) : Prop :=
  s.selectedPiece = none ∧ s.animationInterval = none ∧
    s.timers.active = [] ∧ s.currentFrame = 0

/-- The 32-piece standard starting layout exactly as the specification words
it: black back row on row 0 (rook, knight, bishop, queen, king, bishop,
knight, rook), black pawns on row 1, four empty rows, white pawns on row 6,
white back row on row 7. Stated from the spec, to be compared with
`getInitialBoard`. -/
def standardLayout : Board :=
  [ backRow.map fun t => some ⟨.black, t⟩,
    List.replicate 8 (some ⟨.black, .pawn⟩),
    List.replicate 8 none,
    List.replicate 8 none,
    List.replicate 8 none,
    List.replicate 8 none,
    List.replicate 8 (some ⟨.white, .pawn⟩),
    backRow.map fun t => some ⟨.white, t⟩ ]

/-!
### Concrete example values used by the witnesses
-/

/-- A concrete 160×192 image (the shape of a 10×12 sheet of 16×16 cells). -/
def imgEx : Img := ⟨160, 192, fun x y => 200 * y + x⟩

/-- An environment where every fetch succeeds with `imgEx` and a 2D context
is available. -/
def envEx : Env := { fetch := fun _ => some imgEx, ctx2d := true }

/-- An environment where fetches succeed but `getContext('2d')` yields
`null`. -/
def envNoCtx : Env := { fetch := fun _ => some imgEx, ctx2d := false }

/-- An environment where every fetch fails. -/
def envNoFetch : Env := { fetch := fun _ => none, ctx2d := true }

/-- A color config in which the `queen` position is missing and every other
piece sits at a fixed cell. -/
def ccBlueEx : ColorPiecesConfig :=
  { pos := fun t => match t with
      | .queen => none
      | _ => some ⟨0, 0⟩ }

/-- A configuration whose `green` entry is absent and whose `blue` entry
lacks the `queen` position; `white` and `black` are the defaults. -/
def configEx : FullChessConfig :=
  { colorConfig := fun col => match col with
      | .green => none
      | .blue => some ccBlueEx
      | c => DEFAULT_CHESS_PIECES_CONFIG.colorConfig c }

/-- A configuration whose `green` and `blue` entries are both absent;
`white` and `black` are the defaults. -/
def configEx2 : FullChessConfig :=
  { colorConfig := fun col => match col with
      | .green => none
      | .blue => none
      | c => DEFAULT_CHESS_PIECES_CONFIG.colorConfig c }

/-- The controller state reached from the initial white-player state by
clicking the pawn at `(6, 4)` (square e2): Selected, interval handle 0. -/
def sSelEx : CtrlState := run (initialState .white) [.click 6 4]

/-- A concrete frame. -/
def frameEx : Frame := crop imgEx 16 96 16 16

/-- A four-frame animation strip. -/
def animListEx : List Frame :=
  [crop imgEx 16 96 16 16, crop imgEx 32 96 16 16,
    crop imgEx 48 96 16 16, crop imgEx 64 96 16 16]

/-- A static sprite table holding `frameEx` for every piece. -/
def spritesEx : ChessColorType → ChessPieceType → Option Frame :=
  fun _ _ => some frameEx

/-- An animation table holding `animListEx` for every piece. -/
def animEx : ChessColorType → ChessPieceType → Option (List Frame) :=
  fun _ _ => some animListEx

/-!
## Helper lemmas
-/

theorem length_flatMap_range {α : Type} (f : Nat → List α) (k : Nat)
    (hk : ∀ i, (f i).length = k) (n : Nat) :
    ((List.range n).flatMap f).length = n * k := by
  induction n with
  | zero => simp
  | succ m ih =>
    rw [List.range_succ, List.flatMap_append, List.length_append, ih]
    simp [hk, Nat.succ_mul]

theorem getElem?_flatMap_range {α : Type} (f : Nat → List α) (k : Nat)
    (hk : ∀ i, (f i).length = k) (n : Nat) :
    ∀ r c : Nat, r < n → c < k →
      ((List.range n).flatMap f)[r * k + c]? = (f r)[c]? := by
  induction n with
  | zero => intro r c hr _; omega
  | succ m ih =>
    intro r c hr hc
    rw [List.range_succ, List.flatMap_append, List.getElem?_append,
      length_flatMap_range f k hk m]
    by_cases hrm : r < m
    · rw [if_pos ?_]
      · exact ih r c hrm hc
      · calc r * k + c < r * k + k := by omega
          _ = (r + 1) * k := by ring
          _ ≤ m * k := Nat.mul_le_mul_right k hrm
    · have hreq : r = m := by omega
      subst hreq
      rw [if_neg (by omega)]
      have hsub : r * k + c - r * k = c := by omega
      rw [hsub]
      simp

/-- Reduction of `splitSpriteSheet` in an environment where the fetch and the
context both succeed. -/
theorem splitSpriteSheet_ok (env : Env) (url : String) (img : Img) (columns rows : Nat)
    (hfetch : env.fetch url = some img) (hctx : env.ctx2d = true) :
    splitSpriteSheet env url columns rows =
      .ok ((List.range rows).flatMap fun r =>
        (List.range columns).map fun c =>
          crop img (c * (img.width / columns)) (r * (img.height / rows))
            (img.width / columns) (img.height / rows)) := by
  unfold splitSpriteSheet loadImage getContext2d
  rw [hfetch, hctx]
  rfl

/-- Reduction of `extractAnimationFrames` in an environment where the fetch
and the context both succeed. -/
theorem extractAnimationFrames_ok (env : Env) (url : String) (img : Img)
    (row startColumn endColumn fw fh : Nat)
    (hfetch : env.fetch url = some img) (hctx : env.ctx2d = true) :
    extractAnimationFrames env url row startColumn endColumn fw fh =
      .ok ((List.range' startColumn (endColumn + 1 - startColumn)).map fun col =>
        crop img (col * fw) (row * fh) fw fh) := by
  unfold extractAnimationFrames loadImage getContext2d
  rw [hfetch, hctx]
  rfl

theorem run_nil (s : CtrlState) : run s [] = s := rfl

theorem run_cons (s : CtrlState) (e : BoardEvent) (es : List BoardEvent) :
    run s (e :: es) = run (step s e) es := rfl

theorem stopAnimation_selectedPiece (s : CtrlState) :
    (stopAnimation s).selectedPiece = none := by
  cases hai : s.animationInterval <;> simp [stopAnimation, hai]

theorem stopAnimation_currentFrame (s : CtrlState) :
    (stopAnimation s).currentFrame = 0 := by
  cases hai : s.animationInterval <;> simp [stopAnimation, hai]

theorem stopAnimation_animationInterval (s : CtrlState) :
    (stopAnimation s).animationInterval = none := by
  cases hai : s.animationInterval <;> simp [stopAnimation, hai]

theorem stopAnimation_boardState (s : CtrlState) :
    (stopAnimation s).boardState = s.boardState := by
  cases hai : s.animationInterval <;> simp [stopAnimation, hai]

theorem stopAnimation_playerColor (s : CtrlState) :
    (stopAnimation s).playerColor = s.playerColor := by
  cases hai : s.animationInterval <;> simp [stopAnimation, hai]

theorem stopAnimation_nextId (s : CtrlState) :
    (stopAnimation s).timers.nextId = s.timers.nextId := by
  cases hai : s.animationInterval <;> simp [stopAnimation, hai, clearIntervalSys]

theorem stopAnimation_active (s : CtrlState) (h : sessionInv s) :
    (stopAnimation s).timers.active = [] := by
  rcases h with ⟨_, h2, h3, _⟩ | ⟨cell, id, _, h2, h3, _⟩ <;>
    simp [stopAnimation, h2, clearIntervalSys, h3]

/-- Given the invariant, `stopAnimation` always lands in the clean Idle
state. -/
theorem idleClean_stopAnimation (s : CtrlState) (h : sessionInv s) :
    idleClean (stopAnimation s) :=
  ⟨stopAnimation_selectedPiece s, stopAnimation_animationInterval s,
    stopAnimation_active s h, stopAnimation_currentFrame s⟩

theorem sessionInv_stopAnimation (s : CtrlState) (h : sessionInv s) :
    sessionInv (stopAnimation s) :=
  Or.inl (idleClean_stopAnimation s h)

theorem startAnimation_currentFrame (s : CtrlState) (r c : Nat) :
    (startAnimation s r c).currentFrame = 0 := by
  simp only [startAnimation]
  cases hcell : cellAt (stopAnimation s).boardState r c
  · simpa [hcell] using stopAnimation_currentFrame s
  · simp [hcell, setIntervalSys]

theorem startAnimation_selectedPiece_of_piece (s : CtrlState) (r c : Nat)
    (p : BoardPiece) (hcell : cellAt s.boardState r c = some p) :
    (startAnimation s r c).selectedPiece = some (r, c) := by
  simp only [startAnimation]
  rw [stopAnimation_boardState s, hcell]

theorem sessionInv_startAnimation (s : CtrlState) (r c : Nat) (h : sessionInv s) :
    sessionInv (startAnimation s r c) := by
  simp only [startAnimation]
  cases hcell : cellAt (stopAnimation s).boardState r c
  · simpa [hcell] using sessionInv_stopAnimation s h
  · simp only [hcell, setIntervalSys]
    exact Or.inr ⟨(r, c), (stopAnimation s).timers.nextId, rfl, rfl,
      by simp [stopAnimation_active s h], by simp⟩

/-- `startAnimation` first tears the old session down: the old interval
handle is no longer active afterwards. -/
theorem startAnimation_old_handle_gone (s : CtrlState) (r c idA : Nat)
    (h : sessionInv s) (hA : s.animationInterval = some idA) :
    idA ∉ (startAnimation s r c).timers.active := by
  have hlt : idA < s.timers.nextId := by
    rcases h with ⟨_, h2, _, _⟩ | ⟨cell, id, _, h2, _, h4⟩
    · rw [h2] at hA; cases hA
    · rw [h2] at hA; injection hA with hid; omega
  have hact := stopAnimation_active s h
  have hnext := stopAnimation_nextId s
  simp only [startAnimation]
  cases hcell : cellAt (stopAnimation s).boardState r c
  · simp [hcell, hact]
  · simp only [hcell, setIntervalSys]
    rw [hact, hnext]
    intro hmem
    rcases List.mem_cons.mp hmem with heq | hfalse
    · omega
    · cases hfalse

theorem sessionInv_handleSquareClick (s : CtrlState) (r c : Nat) (h : sessionInv s) :
    sessionInv (handleSquareClick s r c) := by
  unfold handleSquareClick
  cases hcell : cellAt s.boardState r c with
  | none => exact sessionInv_stopAnimation s h
  | some p =>
    by_cases hcol : p.color ≠ s.playerColor
    · simpa [hcol] using h
    · by_cases hsel : s.selectedPiece = some (r, c)
      · simpa [hcol, hsel] using sessionInv_stopAnimation s h
      · simpa [hcol, hsel] using sessionInv_startAnimation s r c h

theorem sessionInv_step (s : CtrlState) (e : BoardEvent) (h : sessionInv s) :
    sessionInv (step s e) := by
  cases e with
  | click r c => exact sessionInv_handleSquareClick s r c h
  | tick id =>
    simp only [step]
    by_cases hid : id ∈ s.timers.active
    · rw [if_pos hid]
      rcases h with ⟨_, _, h3, _⟩ | ⟨cell, idA, h1, h2, h3, h4⟩
      · rw [h3] at hid; cases hid
      · exact Or.inr ⟨cell, idA, h1, h2, h3, h4⟩
    · rw [if_neg hid]; exact h
  | destroy => exact sessionInv_stopAnimation s h

theorem sessionInv_run (s : CtrlState) (es : List BoardEvent) (h : sessionInv s) :
    sessionInv (run s es) := by
  induction es generalizing s with
  | nil => exact h
  | cons e es ih => rw [run_cons]; exact ih (step s e) (sessionInv_step s e h)

theorem sessionInv_initialState (pc : ChessColorType) :
    sessionInv (initialState pc) :=
  Or.inl ⟨rfl, rfl, rfl, rfl⟩

theorem active_length_le_one (s : CtrlState) (h : sessionInv s) :
    s.timers.active.length ≤ 1 := by
  rcases h with ⟨_, _, h3, _⟩ | ⟨_, _, _, _, h3, _⟩ <;> rw [h3] <;> simp

/-- A clean Idle state stays clean under any event that does not select a
piece. -/
theorem idleClean_step (s : CtrlState) (hs : idleClean s) (e : BoardEvent)
    (hsel : (step s e).selectedPiece = none) : idleClean (step s e) := by
  obtain ⟨h1, h2, h3, h4⟩ := hs
  cases e with
  | tick id =>
    simp only [step, h3]
    simpa using ⟨h1, h2, h3, h4⟩
  | destroy =>
    exact idleClean_stopAnimation s (Or.inl ⟨h1, h2, h3, h4⟩)
  | click r c =>
    simp only [step, handleSquareClick] at hsel ⊢
    cases hcell : cellAt s.boardState r c with
    | none =>
      simp only [hcell]
      exact idleClean_stopAnimation s (Or.inl ⟨h1, h2, h3, h4⟩)
    | some p =>
      simp only [hcell] at hsel ⊢
      by_cases hcol : p.color ≠ s.playerColor
      · simpa [hcol] using ⟨h1, h2, h3, h4⟩
      · have hne : ¬ s.selectedPiece = some (r, c) := by rw [h1]; simp
        rw [if_neg hcol, if_neg hne] at hsel
        rw [startAnimation_selectedPiece_of_piece s r c _ hcell] at hsel
        cases hsel

/-- From a clean Idle state, the frame counter stays 0 as long as no event
selects a piece. -/
theorem frame_stays_zero (s : CtrlState) (hs : idleClean s) :
    ∀ es : List BoardEvent,
      (∀ n, (run s (es.take n)).selectedPiece = none) →
      (run s es).currentFrame = 0 := by
  intro es
  induction es generalizing s with
  | nil => intro _; exact hs.2.2.2
  | cons e es ih =>
    intro hsel
    rw [run_cons]
    have h1 : (step s e).selectedPiece = none := by
      have := hsel 1
      simpa [run_cons] using this
    refine ih (step s e) (idleClean_step s hs e h1) ?_
    intro n
    have := hsel (n + 1)
    simpa [List.take_succ_cons, run_cons] using this

/-!
## Claims
-/

/-- **C2**: for every image with width `w` and height `h` and every
`columns, rows ≥ 1`, `splitSpriteSheet` returns exactly `columns * rows`
frames in row-major order (row 0 left-to-right, then row 1, and so on), where
the frame at row-major index `r * columns + c` is the crop of the rectangle
`[c * frameWidth, r * frameHeight, frameWidth, frameHeight]` with
`frameWidth = floor(w / columns)` and `frameHeight = floor(h / rows)`. -/
theorem splitSpriteSheet_row_major (env : Env) (url : String) (img : Img)
    (columns rows : Nat) (hc : 1 ≤ columns) (hr : 1 ≤ rows)
    (hfetch : env.fetch url = some img) (hctx : env.ctx2d = true) :
    ∃ frames, splitSpriteSheet env url columns rows = .ok frames ∧
      frames.length = columns * rows ∧
      ∀ r c, r < rows → c < columns →
        frames[r * columns + c]? =
          some (crop img (c * (img.width / columns)) (r * (img.height / rows))
            (img.width / columns) (img.height / rows)) := by
  refine ⟨_, splitSpriteSheet_ok env url img columns rows hfetch hctx, ?_, ?_⟩
  · rw [length_flatMap_range _ columns (fun i => by simp) rows, Nat.mul_comm]
  · intro r c hrr hcc
    rw [getElem?_flatMap_range _ columns (fun i => by simp) rows r c hrr hcc,
      List.getElem?_map, List.getElem?_range hcc]
    rfl

/-- Witness for C2: a 160×192 sheet split into 10 columns and 12 rows. -/
theorem splitSpriteSheet_row_major_witness :
    ∃ frames, splitSpriteSheet envEx "sheet.webp" 10 12 = .ok frames ∧
      frames.length = 10 * 12 ∧
      ∀ r c, r < 12 → c < 10 →
        frames[r * 10 + c]? =
          some (crop imgEx (c * (imgEx.width / 10)) (r * (imgEx.height / 12))
            (imgEx.width / 10) (imgEx.height / 12)) :=
  splitSpriteSheet_row_major envEx "sheet.webp" imgEx 10 12 (by decide) (by decide) rfl rfl

/-- **C7**: for every row and every `startColumn ≤ endColumn`,
`extractAnimationFrames` returns exactly `endColumn - startColumn + 1`
frames, the `i`-th being the crop at column `startColumn + i` of the given
row, i.e. one frame per column of `[startColumn, endColumn]` inclusive in
increasing column order. -/
theorem extractAnimationFrames_range (env : Env) (url : String) (img : Img)
    (row startColumn endColumn fw fh : Nat) (hse : startColumn ≤ endColumn)
    (hfetch : env.fetch url = some img) (hctx : env.ctx2d = true) :
    ∃ frames, extractAnimationFrames env url row startColumn endColumn fw fh = .ok frames ∧
      frames.length = endColumn - startColumn + 1 ∧
      ∀ i, i ≤ endColumn - startColumn →
        frames[i]? = some (crop img ((startColumn + i) * fw) (row * fh) fw fh) := by
  refine ⟨_, extractAnimationFrames_ok env url img row startColumn endColumn fw fh hfetch hctx,
    ?_, ?_⟩
  · rw [List.length_map, List.length_range']
    omega
  · intro i hi
    rw [List.getElem?_map, List.getElem?_range' startColumn 1 (by omega)]
    simp

/-- Witness for C7: the white animation strip, columns 1–4 of row 6. -/
theorem extractAnimationFrames_range_witness :
    ∃ frames, extractAnimationFrames envEx "sheet.webp" 6 1 4 16 16 = .ok frames ∧
      frames.length = 4 - 1 + 1 ∧
      ∀ i, i ≤ 4 - 1 →
        frames[i]? = some (crop imgEx ((1 + i) * 16) (6 * 16) 16 16) :=
  extractAnimationFrames_range envEx "sheet.webp" imgEx 6 1 4 16 16 (by decide) rfl rfl

/-- **C9**: `loadImage` fails with a `LoadError` exactly when the fetch or
decode fails and resolves with the decoded image otherwise (a single fetch
per call); and each extraction operation (`extractSprite`, `splitSpriteSheet`,
`extractAnimationFrames`), once its image is available, fails with a
`RenderError` exactly when no 2D drawing context can be obtained and succeeds
otherwise. -/
theorem error_conditions (env : Env) (url : String) :
    (env.fetch url = none → loadImage env url = .error (.loadError url)) ∧
    (∀ img, env.fetch url = some img → loadImage env url = .ok img) ∧
    (∀ img column row startColumn endColumn frameWidth frameHeight columns rows,
      env.fetch url = some img →
      (env.ctx2d = false →
        extractSprite env url column row frameWidth frameHeight = .error .renderError ∧
        splitSpriteSheet env url columns rows = .error .renderError ∧
        extractAnimationFrames env url row startColumn endColumn frameWidth frameHeight =
          .error .renderError) ∧
      (env.ctx2d = true →
        extractSprite env url column row frameWidth frameHeight =
          .ok (crop img (column * frameWidth) (row * frameHeight) frameWidth frameHeight) ∧
        (∃ fs, splitSpriteSheet env url columns rows = .ok fs) ∧
        (∃ fs, extractAnimationFrames env url row startColumn endColumn frameWidth frameHeight =
          .ok fs))) := by
  refine ⟨fun h => by simp [loadImage, h], fun img h => by simp [loadImage, h], ?_⟩
  intro img column row sc ec fw fh columns rows hfetch
  constructor
  · intro hctx
    refine ⟨?_, ?_, ?_⟩
    · unfold extractSprite loadImage getContext2d
      rw [hfetch, hctx]
      rfl
    · unfold splitSpriteSheet loadImage getContext2d
      rw [hfetch, hctx]
      rfl
    · unfold extractAnimationFrames loadImage getContext2d
      rw [hfetch, hctx]
      rfl
  · intro hctx
    refine ⟨?_, ⟨_, splitSpriteSheet_ok env url img columns rows hfetch hctx⟩,
      ⟨_, extractAnimationFrames_ok env url img row sc ec fw fh hfetch hctx⟩⟩
    unfold extractSprite loadImage getContext2d
    rw [hfetch, hctx]
    rfl

/-- Witness for C9: a failing fetch yields the load error, a successful fetch
yields the image, a missing context yields the render error, and a full
environment succeeds. -/
theorem error_conditions_witness :
    loadImage envNoFetch "a.webp" = .error (.loadError "a.webp") ∧
    loadImage envEx "a.webp" = .ok imgEx ∧
    extractSprite envNoCtx "a.webp" 2 5 16 16 = .error .renderError ∧
    extractSprite envEx "a.webp" 2 5 16 16 =
      .ok (crop imgEx (2 * 16) (5 * 16) 16 16) :=
  ⟨(error_conditions envNoFetch "a.webp").1 rfl,
    (error_conditions envEx "a.webp").2.1 imgEx rfl,
    (((error_conditions envNoCtx "a.webp").2.2 imgEx 2 5 1 4 16 16 10 12 rfl).1 rfl).1,
    (((error_conditions envEx "a.webp").2.2 imgEx 2 5 1 4 16 16 10 12 rfl).2 rfl).1⟩

/-- **C1**: for every event sequence from mount (clicks, timer ticks,
teardown), at most one animation session — selected cell plus repeating
timer — exists at any time: the reachable state always has at most one
active timer, coherent with the selection; and `startAnimation` always tears
the existing session down first, so selecting piece B while piece A is
selected removes A's interval handle before B's timer starts. -/
theorem at_most_one_animation_session (pc : ChessColorType) (es : List BoardEvent) :
    sessionInv (run (initialState pc) es) ∧
    (run (initialState pc) es).timers.active.length ≤ 1 ∧
    (∀ s r c idA, sessionInv s → s.animationInterval = some idA →
      idA ∉ (startAnimation s r c).timers.active ∧
      (startAnimation s r c).timers.active.length ≤ 1) := by
  have hinv := sessionInv_run (initialState pc) es (sessionInv_initialState pc)
  refine ⟨hinv, active_length_le_one _ hinv, ?_⟩
  intro s r c idA hs hA
  exact ⟨startAnimation_old_handle_gone s r c idA hs hA,
    active_length_le_one _ (sessionInv_startAnimation s r c hs)⟩

/-- Witness for C1: select e2 then switch to f2; and from the selected state
`sSelEx` (interval handle 0), starting on another cell drops handle 0. -/
theorem at_most_one_animation_session_witness :
    sessionInv (run (initialState .white) [.click 6 4, .click 6 5]) ∧
    (run (initialState .white) [.click 6 4, .click 6 5]).timers.active.length ≤ 1 ∧
    (0 ∉ (startAnimation sSelEx 6 5).timers.active ∧
      (startAnimation sSelEx 6 5).timers.active.length ≤ 1) := by
  obtain ⟨h1, h2, h3⟩ := at_most_one_animation_session .white [.click 6 4, .click 6 5]
  exact ⟨h1, h2, h3 sSelEx 6 5 0 (Or.inr ⟨(6, 4), 0, rfl, rfl, rfl, by decide⟩) rfl⟩

/-- **C3**: the frame index is reset to 0 on every transition into Selected
(`startAnimation`) and on every transition to Idle (`stopAnimation`); while a
timer is active each tick increments it by exactly 1, `n` ticks add exactly
`n` (no upper bound), and over any tick-only event sequence the index is
monotonically non-decreasing. -/
theorem frame_counter_behavior :
    (∀ s r c, (startAnimation s r c).currentFrame = 0) ∧
    (∀ s, (stopAnimation s).currentFrame = 0) ∧
    (∀ s id, id ∈ s.timers.active →
      (step s (.tick id)).currentFrame = s.currentFrame + 1) ∧
    (∀ s id n, id ∈ s.timers.active →
      (run s (List.replicate n (.tick id))).currentFrame = s.currentFrame + n) ∧
    (∀ s es, (∀ e ∈ es, ∃ id, e = .tick id) →
      s.currentFrame ≤ (run s es).currentFrame) := by
  refine ⟨fun s r c => startAnimation_currentFrame s r c,
    fun s => stopAnimation_currentFrame s,
    fun s id h => by simp [step, h], ?_, ?_⟩
  · intro s id n h
    induction n generalizing s with
    | zero => simp [run_nil]
    | succ m ih =>
      rw [List.replicate_succ, run_cons]
      have hstep : step s (.tick id) = { s with currentFrame := s.currentFrame + 1 } := by
        simp [step, h]
      rw [hstep, ih { s with currentFrame := s.currentFrame + 1 } h]
      show s.currentFrame + 1 + m = s.currentFrame + (m + 1)
      omega
  · intro s es h
    induction es generalizing s with
    | nil => exact Nat.le_refl _
    | cons e es ih =>
      obtain ⟨id, rfl⟩ := h e (List.mem_cons_self e es)
      rw [run_cons]
      have hle : s.currentFrame ≤ (step s (.tick id)).currentFrame := by
        simp only [step]
        by_cases hid : id ∈ s.timers.active
        · rw [if_pos hid]; exact Nat.le_succ _
        · rw [if_neg hid]
      exact le_trans hle (ih _ (fun e' he' => h e' (List.mem_cons_of_mem _ he')))

/-- Witness for C3: concrete resets, one tick adds one, five ticks add five,
tick-only runs never decrease the counter. -/
theorem frame_counter_behavior_witness :
    (startAnimation (initialState .white) 6 4).currentFrame = 0 ∧
    (stopAnimation sSelEx).currentFrame = 0 ∧
    (step sSelEx (.tick 0)).currentFrame = sSelEx.currentFrame + 1 ∧
    (run sSelEx (List.replicate 5 (.tick 0))).currentFrame = sSelEx.currentFrame + 5 ∧
    sSelEx.currentFrame ≤ (run sSelEx [.tick 0, .tick 0]).currentFrame := by
  obtain ⟨h1, h2, h3, h4, h5⟩ := frame_counter_behavior
  refine ⟨h1 _ 6 4, h2 _, h3 sSelEx 0 (by decide), h4 sSelEx 0 5 (by decide),
    h5 sSelEx _ ?_⟩
  intro e he
  fin_cases he <;> exact ⟨0, rfl⟩

/-- **C4**: while Selected, a click on the currently selected cell or on an
empty cell runs `stopAnimation`: the interval is cleared, the selection is
nulled, the frame index is reset to 0 (the clean Idle state), and from that
state the frame index stays 0 for any subsequent events as long as no new
selection occurs. -/
theorem selected_or_empty_click_teardown (s : CtrlState) (r c : Nat)
    (hinv : sessionInv s) :
    (cellAt s.boardState r c = none → handleSquareClick s r c = stopAnimation s) ∧
    (∀ p, cellAt s.boardState r c = some p → p.color = s.playerColor →
      s.selectedPiece = some (r, c) → handleSquareClick s r c = stopAnimation s) ∧
    idleClean (stopAnimation s) ∧
    (∀ es : List BoardEvent,
      (∀ n, (run (stopAnimation s) (es.take n)).selectedPiece = none) →
      (run (stopAnimation s) es).currentFrame = 0) := by
  refine ⟨?_, ?_, idleClean_stopAnimation s hinv, ?_⟩
  · intro hcell
    simp [handleSquareClick, hcell]
  · intro p hcell hcol hsel
    simp [handleSquareClick, hcell, hcol, hsel]
  · exact frame_stays_zero (stopAnimation s) (idleClean_stopAnimation s hinv)

/-- Witness for C4: from the selected state `sSelEx`, re-clicking e2 and
clicking the empty square `(3, 3)` both tear down, and after teardown a tick
plus teardown leave the frame counter at 0. -/
theorem selected_or_empty_click_teardown_witness :
    handleSquareClick sSelEx 6 4 = stopAnimation sSelEx ∧
    handleSquareClick sSelEx 3 3 = stopAnimation sSelEx ∧
    idleClean (stopAnimation sSelEx) ∧
    (run (stopAnimation sSelEx) [.tick 0, .destroy]).currentFrame = 0 := by
  obtain ⟨-, h2, h3, h4⟩ := selected_or_empty_click_teardown sSelEx 6 4
    (Or.inr ⟨(6, 4), 0, rfl, rfl, rfl, by decide⟩)
  obtain ⟨h1e, -, -, -⟩ := selected_or_empty_click_teardown sSelEx 3 3
    (Or.inr ⟨(6, 4), 0, rfl, rfl, rfl, by decide⟩)
  refine ⟨h2 ⟨.white, .pawn⟩ rfl rfl rfl, h1e rfl, h3, h4 [.tick 0, .destroy] ?_⟩
  intro n
  rcases n with _ | _ | n
  · rfl
  · rfl
  · rw [List.take_succ_cons, List.take_succ_cons, List.take_nil]
    rfl

/-- **C5**: a click on a cell holding a piece whose color differs from
`playerColor` leaves the controller state unchanged in every state (Idle or
Selected — the original selection and its running timer survive untouched),
and a click on an empty cell while in the clean Idle state leaves the state
unchanged as well. -/
theorem opponent_click_noop (s : CtrlState) (r c : Nat) :
    (∀ p, cellAt s.boardState r c = some p → p.color ≠ s.playerColor →
      handleSquareClick s r c = s) ∧
    (idleClean s → cellAt s.boardState r c = none → handleSquareClick s r c = s) := by
  constructor
  · intro p hcell hcol
    simp [handleSquareClick, hcell, hcol]
  · intro hs hcell
    have hstop : handleSquareClick s r c = stopAnimation s := by
      simp [handleSquareClick, hcell]
    rw [hstop]
    obtain ⟨h1, h2, h3, h4⟩ := hs
    obtain ⟨pc, bs, sel, cf, ai, tm⟩ := s
    have h1' : sel = none := h1
    have h2' : ai = none := h2
    have h4' : cf = 0 := h4
    subst h1'
    subst h2'
    subst h4'
    rfl

/-- Witness for C5: clicking the black pawn on e7 while Idle and while
Selected changes nothing, and clicking the empty square `(3, 3)` while Idle
changes nothing. -/
theorem opponent_click_noop_witness :
    handleSquareClick (initialState .white) 1 4 = initialState .white ∧
    handleSquareClick sSelEx 1 4 = sSelEx ∧
    handleSquareClick (initialState .white) 3 3 = initialState .white := by
  obtain ⟨ha, -⟩ := opponent_click_noop (initialState .white) 1 4
  obtain ⟨hc, -⟩ := opponent_click_noop sSelEx 1 4
  obtain ⟨-, hd⟩ := opponent_click_noop (initialState .white) 3 3
  exact ⟨ha ⟨.black, .pawn⟩ (by decide) (by decide),
    hc ⟨.black, .pawn⟩ (by decide) (by decide),
    hd ⟨rfl, rfl, rfl, rfl⟩ (by decide)⟩

/-- **C6**: for a cell `(r, c)` holding a piece, when `(r, c)` is the
selected cell and the animation table knows a non-empty frame list for the
piece, `getPieceSprite` returns `frames[frame % frames.length]` (which always
exists); when the list is empty or absent it falls through to the static
sprite of the piece; and when the static sprite is also unknown it returns
nothing. -/
theorem getPieceSprite_rendering
    (sprites : ChessColorType → ChessPieceType → Option Frame)
    (anim : ChessColorType → ChessPieceType → Option (List Frame))
    (board : Board) (r c frame : Nat) (piece : BoardPiece)
    (hcell : cellAt board r c = some piece) :
    (∀ frames, anim piece.color piece.type = some frames → 0 < frames.length →
      getPieceSprite (some sprites) (some anim) board r c frame (some (r, c)) =
        frames.get? (frame % frames.length) ∧
      ∃ f, frames.get? (frame % frames.length) = some f) ∧
    (anim piece.color piece.type = some [] →
      getPieceSprite (some sprites) (some anim) board r c frame (some (r, c)) =
        sprites piece.color piece.type) ∧
    (anim piece.color piece.type = none →
      getPieceSprite (some sprites) (some anim) board r c frame (some (r, c)) =
        sprites piece.color piece.type) ∧
    (anim piece.color piece.type = none → sprites piece.color piece.type = none →
      getPieceSprite (some sprites) (some anim) board r c frame (some (r, c)) = none) := by
  refine ⟨?_, ?_, ?_, ?_⟩
  · intro frames hfr h0
    refine ⟨by simp [getPieceSprite, hcell, hfr, h0], ?_⟩
    have hm : frame % frames.length < frames.length := Nat.mod_lt _ h0
    exact ⟨frames.get ⟨_, hm⟩, List.get?_eq_get hm⟩
  · intro hfr
    simp [getPieceSprite, hcell, hfr]
  · intro hfr
    simp [getPieceSprite, hcell, hfr]
  · intro hfr hsp
    simp [getPieceSprite, hcell, hfr, hsp]

/-- Witness for C6: the selected e2 pawn with the four-frame strip shows
frame `7 % 4`. -/
theorem getPieceSprite_rendering_witness :
    getPieceSprite (some spritesEx) (some animEx) getInitialBoard 6 4 7 (some (6, 4)) =
      animListEx.get? (7 % animListEx.length) ∧
    ∃ f, animListEx.get? (7 % animListEx.length) = some f := by
  obtain ⟨h1, -, -, -⟩ := getPieceSprite_rendering spritesEx animEx getInitialBoard 6 4 7
    ⟨.white, .pawn⟩ (by decide)
  exact h1 animListEx rfl (by decide)

/-- Reduction of `loadPieceAnimationFrames` when fetch and context succeed. -/
theorem loadPieceAnimationFrames_ok (env : Env) (url : String) (img : Img)
    (config : FullChessConfig) (animConfig : ChessColorType → AnimationColumnsConfig)
    (hfetch : env.fetch url = some img) (hctx : env.ctx2d = true) :
    loadPieceAnimationFrames env url config animConfig = .ok (fun color =>
      match config.colorConfig color with
      | none => fun _ => none
      | some cc => fun t =>
        match cc.pos t with
        | none => none
        | some p => some (extractFramesForPiece img p.row
            (animConfig color).startColumn (animConfig color).endColumn)) := by
  unfold loadPieceAnimationFrames loadImage getContext2d
  rw [hfetch, hctx]
  rfl

/-- Reduction of `loadChessPiecesWithConfig` when fetch and context succeed,
`white`/`black` configs are present and `green`/`blue` are absent. -/
theorem loadChessPiecesWithConfig_reduce (env : Env) (url : String) (img : Img)
    (config : FullChessConfig) (fw fh : Nat) (ccw ccb : ColorPiecesConfig)
    (hfetch : env.fetch url = some img) (hctx : env.ctx2d = true)
    (hwhite : config.colorConfig .white = some ccw)
    (hblack : config.colorConfig .black = some ccb)
    (hgreen : config.colorConfig .green = none)
    (hblue : config.colorConfig .blue = none) :
    loadChessPiecesWithConfig env url config fw fh =
      (extractColorSet img fw fh ccw) >>= fun white =>
      (extractColorSet img fw fh ccb) >>= fun black =>
      pure (fun col => match col with
        | .white => white
        | .black => black
        | .green => fun _ => none
        | .blue => fun _ => none) := by
  unfold loadChessPiecesWithConfig loadImage getContext2d
  rw [hfetch, hctx, hwhite, hblack, hgreen, hblue]
  rfl

/-- **C8**: when a position is missing from the configuration no fallback
piece is substituted and the corresponding output key is simply absent:
`loadPieceAnimationFrames` leaves every key of an absent color empty and
omits the piece-type key whose position is absent; and
`loadChessPiecesWithConfig` produces no piece entries for an optional color
whose config is absent. -/
theorem missing_config_keys (env : Env) (url : String) (img : Img)
    (config : FullChessConfig) (animConfig : ChessColorType → AnimationColumnsConfig)
    (hfetch : env.fetch url = some img) (hctx : env.ctx2d = true) :
    (∃ result, loadPieceAnimationFrames env url config animConfig = .ok result ∧
      (∀ color, config.colorConfig color = none → ∀ t, result color t = none) ∧
      (∀ color cc, config.colorConfig color = some cc →
        ∀ t, cc.pos t = none → result color t = none)) ∧
    (∀ fw fh ccw ccb wset bset,
      config.colorConfig .white = some ccw → config.colorConfig .black = some ccb →
      config.colorConfig .green = none → config.colorConfig .blue = none →
      extractColorSet img fw fh ccw = .ok wset →
      extractColorSet img fw fh ccb = .ok bset →
      ∃ result, loadChessPiecesWithConfig env url config fw fh = .ok result ∧
        (∀ t, result .green t = none) ∧ (∀ t, result .blue t = none)) := by
  constructor
  · refine ⟨_, loadPieceAnimationFrames_ok env url img config animConfig hfetch hctx, ?_, ?_⟩
    · intro color hcol t
      simp [hcol]
    · intro color cc hcol t hp
      simp [hcol, hp]
  · intro fw fh ccw ccb wset bset hwhite hblack hgreen hblue hw hb
    have hred := loadChessPiecesWithConfig_reduce env url img config fw fh ccw ccb
      hfetch hctx hwhite hblack hgreen hblue
    rw [hw, hb] at hred
    refine ⟨fun col => match col with
      | .white => wset
      | .black => bset
      | .green => fun _ => none
      | .blue => fun _ => none, ?_, fun t => rfl, fun t => rfl⟩
    rw [hred]
    rfl

/-- Witness for C8: with `configEx` (no `green` entry, no `blue` queen
position) the animation table leaves those keys empty; with `configEx2`
(no `green`, no `blue`) the static table has no entries for either color. -/
theorem missing_config_keys_witness :
    (∃ result, loadPieceAnimationFrames envEx "p.webp" configEx DEFAULT_ANIMATION_COLUMNS =
        .ok result ∧
      result .green .pawn = none ∧ result .blue .queen = none) ∧
    (∃ result, loadChessPiecesWithConfig envEx "p.webp" configEx2 16 16 = .ok result ∧
      result .green .king = none ∧ result .blue .king = none) := by
  constructor
  · obtain ⟨⟨result, hok, habsent, hpos⟩, -⟩ :=
      missing_config_keys envEx "p.webp" imgEx configEx DEFAULT_ANIMATION_COLUMNS rfl rfl
    exact ⟨result, hok, habsent .green rfl .pawn, hpos .blue ccBlueEx rfl .queen rfl⟩
  · obtain ⟨-, h2⟩ :=
      missing_config_keys envEx "p.webp" imgEx configEx2 DEFAULT_ANIMATION_COLUMNS rfl rfl
    obtain ⟨result, hok, hg, hb⟩ := h2 16 16 _ _ _ _ rfl rfl rfl rfl rfl rfl
    exact ⟨result, hok, hg .king, hb .king⟩

theorem cellAt_getInitialBoard_oob (r c : Nat) (h : 8 ≤ r ∨ 8 ≤ c) :
    cellAt getInitialBoard r c = none := by
  have hb : getInitialBoard = standardLayout := by decide
  rw [hb]
  unfold cellAt
  rcases h with hr | hc
  · rw [List.get?_eq_none.mpr (by have hlen : standardLayout.length = 8 := rfl; omega)]
    rfl
  · cases hrow : standardLayout.get? r with
    | none => rfl
    | some row =>
      have hmem : row ∈ standardLayout := List.get?_mem hrow
      have hlen : row.length = 8 := by
        have hall : ∀ row ∈ standardLayout, row.length = 8 := by decide
        exact hall row hmem
      show (row.get? c).join = none
      rw [List.get?_eq_none.mpr (by omega)]
      rfl

/-- **C10**: `getInitialBoard` takes no parameters (so it is independent of
the component's `size` prop) and returns the 8×8 standard 32-piece starting
layout — black back row `rook knight bishop queen king bishop knight rook`
on row 0, black pawns on row 1, white pawns on row 6, white back row on
row 7 — and for coordinates outside the 8×8 state, as arise when
`size > 8`, `getPieceSprite` returns `none` rather than failing. -/
theorem initial_board_and_oob_safety :
    getInitialBoard = standardLayout ∧
    getInitialBoard.length = 8 ∧
    (∀ row ∈ getInitialBoard, row.length = 8) ∧
    (getInitialBoard.map (fun row => (row.filterMap id).length)).sum = 32 ∧
    (∀ sprites anim r c frame sel, 8 ≤ r ∨ 8 ≤ c →
      getPieceSprite sprites anim getInitialBoard r c frame sel = none) := by
  refine ⟨by decide, by decide, by decide, by decide, ?_⟩
  intro sprites anim r c frame sel h
  cases sprites with
  | none => rfl
  | some sp =>
    simp [getPieceSprite, cellAt_getInitialBoard_oob r c h]

/-- Witness for C10: out-of-range coordinates `(8, 0)` and `(0, 9)` render
nothing. -/
theorem initial_board_and_oob_safety_witness :
    getInitialBoard = standardLayout ∧
    getPieceSprite (some spritesEx) (some animEx) getInitialBoard 8 0 0 (some (8, 0)) = none ∧
    getPieceSprite (some spritesEx) (some animEx) getInitialBoard 0 9 0 none = none := by
  obtain ⟨h1, -, -, -, h5⟩ := initial_board_and_oob_safety
  exact ⟨h1, h5 _ _ 8 0 0 _ (Or.inl (by decide)), h5 _ _ 0 9 0 none (Or.inr (by decide))⟩

end DuckChess
